import Mathlib

set_option maxHeartbeats 1000000
set_option maxRecDepth 4000

/- Shallow embedding of the WaterMeter repository: the browser client
   (src/static/app.js) and the ESP32 camera firmware
   (src/CamSketch/CamSketch.ino).  JS numbers that hold timestamps and
   sequence numbers are modelled as Int; durations and wall-clock offsets
   as Nat.  Asynchronous waiting is modelled by explicit elapsed-time
   accounting; network responses are inputs to the embedded functions. -/

/-- The `result` object inside the latest-image metadata
    (`GET /api/watermeter/latest` response).  `ts` may be absent
    (`result?.ts ?? 0` in the client); `reading` may be absent (outer
    `Option`) and, when present, may fail `parseFloat`/`isFinite`
    (inner `Option`). -/
structure MetaResult where
  ts : Option Int
  reading : Option (Option Int)
deriving DecidableEq

/-- Latest-image metadata as consumed by the client:
    `{ hasImage, imageUrl, result }`.  A missing/empty `imageUrl` is the
    empty string (falsy in JS). -/
structure Meta where
  hasImage : Bool
  imageUrl : String
  result : Option MetaResult
deriving DecidableEq

/-- `meta?.result?.ts ?? 0` from app.js. -/
def metaTs (m : Meta) : Int :=
  (m.result.bind MetaResult.ts).getD 0

/-- The success condition of the wait loop in `waitForNewImage`
    (app.js line 742): `ts > prevTs && meta?.hasImage && meta?.imageUrl`. -/
def isFreshMeta (prevTs : Int) (m : Meta) : Bool :=
  decide (prevTs < metaTs m) && m.hasImage && decide (m.imageUrl ≠ "")

/-- HTTP requests the client issues for the capture flow.  `getLatest`
    records the `nocache` query value and whether the fetch was issued
    with `cache: "no-store"`. -/
inductive Req where
  | postCapture : Req
  | getLatest (nocache : Nat) (noStore : Bool) : Req
  | stateQuery : Req
deriving DecidableEq

deriving instance DecidableEq for Except

/-- Outcome of one run of `waitForNewImage`: the returned value or thrown
    error, the value of `Date.now() - t0` at return, and the metadata
    requests issued (in order). -/
structure WaitOut where
  result : Except String Meta
  elapsed : Nat
  reqs : List Req

def timeoutErrMsg : String := "Timed out waiting for new image upload"

/-- The loop body of `waitForNewImage` (app.js lines 734-748), with an
    explicit fuel argument for structural recursion.  `polls j` is what the
    j-th call of `getLatestMeta` produces (`Except.error` = the fetch threw);
    `dur j` is that poll's round-trip time.  The loop condition
    `Date.now() - t0 < timeoutMs` is checked on the elapsed counter `e`;
    each iteration advances time by the poll duration plus `intervalMs`
    (the `setTimeout` sleep).  When fuel runs out inside the loop a
    distinguished marker is returned; with `1 ≤ intervalMs` and the fuel
    used by `waitForNewImage` this never happens. -/
def waitGo (polls : Nat → Except String Meta) (dur : Nat → Nat)
    (prevTs : Int) (timeoutMs intervalMs : Nat) :
    Nat → Nat → Nat → WaitOut
  | 0, _, e =>
    if e < timeoutMs then ⟨Except.error "poll fuel exhausted", e, []⟩
    else ⟨Except.error timeoutErrMsg, e, []⟩
  | fuel + 1, i, e =>
    if e < timeoutMs then
      match polls i with
      | Except.error msg => ⟨Except.error msg, e + dur i, [Req.getLatest e true]⟩
      | Except.ok m =>
        if isFreshMeta prevTs m then
          ⟨Except.ok m, e + dur i, [Req.getLatest e true]⟩
        else
          ⟨(waitGo polls dur prevTs timeoutMs intervalMs fuel (i + 1) (e + dur i + intervalMs)).result,
           (waitGo polls dur prevTs timeoutMs intervalMs fuel (i + 1) (e + dur i + intervalMs)).elapsed,
           Req.getLatest e true ::
             (waitGo polls dur prevTs timeoutMs intervalMs fuel (i + 1) (e + dur i + intervalMs)).reqs⟩
    else ⟨Except.error timeoutErrMsg, e, []⟩

/-- `waitForNewImage(prevTs, {timeoutMs, intervalMs})` from app.js,
    started at elapsed time 0 with fuel that (for `1 ≤ intervalMs`) is
    never exhausted. -/
def waitForNewImage (polls : Nat → Except String Meta) (dur : Nat → Nat)
    (prevTs : Int) (timeoutMs intervalMs : Nat) : WaitOut :=
  waitGo polls dur prevTs timeoutMs intervalMs (timeoutMs + 1) 0 0

theorem isFreshMeta_eq_false_of_le {prevTs : Int} {m : Meta}
    (h : metaTs m ≤ prevTs) : isFreshMeta prevTs m = false := by
  simp [isFreshMeta, decide_eq_false_iff_not]
  intro hlt
  omega

theorem isFreshMeta_iff {prevTs : Int} {m : Meta} :
    isFreshMeta prevTs m = true ↔
      prevTs < metaTs m ∧ m.hasImage = true ∧ m.imageUrl ≠ "" := by
  simp [isFreshMeta, and_assoc]

theorem waitGo_ok_fresh (p : Nat → Except String Meta) (d : Nat → Nat)
    (prev : Int) (T I : Nat) :
    ∀ fuel i e m, (waitGo p d prev T I fuel i e).result = Except.ok m →
      isFreshMeta prev m = true := by
  intro fuel
  induction fuel with
  | zero =>
    intro i e m h
    unfold waitGo at h
    split at h <;> simp_all
  | succ n ih =>
    intro i e m h
    unfold waitGo at h
    by_cases hc : e < T
    · rw [if_pos hc] at h
      cases hp : p i with
      | error msg => rw [hp] at h; simp_all
      | ok mm =>
        rw [hp] at h
        by_cases hf : isFreshMeta prev mm = true
        · simp_all
        · simp only [hf, Bool.false_eq_true, if_false] at h
          exact ih (i + 1) (e + d i + I) m h
    · rw [if_neg hc] at h
      simp_all

theorem waitGo_timeout (p : Nat → Except String Meta) (d : Nat → Nat)
    (prev : Int) (T I : Nat) (hI : 1 ≤ I)
    (hall : ∀ j, ∃ m, p j = Except.ok m ∧ isFreshMeta prev m = false) :
    ∀ fuel i e, T ≤ fuel + e →
      (waitGo p d prev T I fuel i e).result = Except.error timeoutErrMsg := by
  intro fuel
  induction fuel with
  | zero =>
    intro i e hTe
    unfold waitGo
    rw [if_neg (by omega)]
  | succ n ih =>
    intro i e hTe
    unfold waitGo
    by_cases hc : e < T
    · rw [if_pos hc]
      obtain ⟨m, hm, hf⟩ := hall i
      rw [hm]
      simp only [hf, Bool.false_eq_true, if_false]
      exact ih (i + 1) (e + d i + I) (by omega)
    · rw [if_neg hc]

/-- C1: `waitForNewImage(prevTs, {timeoutMs, intervalMs})` returns a
    metadata object only if it has `hasImage` true, a non-empty `imageUrl`
    and `result.ts` strictly greater than `prevTs`; and if every poll
    returns metadata and none satisfies that condition, the call throws
    the timeout error instead of returning, so the capture flow never
    reports an artifact with timestamp ≤ `prevTs` as the result of the
    just-issued request. -/
theorem C1_waitForNewImage_only_fresh_or_timeout
    (p : Nat → Except String Meta) (d : Nat → Nat) (prev : Int) (T I : Nat) :
    (∀ m, (waitForNewImage p d prev T I).result = Except.ok m →
        prev < metaTs m ∧ m.hasImage = true ∧ m.imageUrl ≠ "") ∧
    ((∀ j, ∃ m, p j = Except.ok m ∧ isFreshMeta prev m = false) → 1 ≤ I →
        (waitForNewImage p d prev T I).result = Except.error timeoutErrMsg) := by
  constructor
  · intro m h
    exact isFreshMeta_iff.mp (waitGo_ok_fresh p d prev T I (T + 1) 0 0 m h)
  · intro hall hI
    exact waitGo_timeout p d prev T I hI hall (T + 1) 0 0 (by omega)

theorem C1_witness :
    (waitForNewImage (fun _ => Except.ok ⟨false, "", none⟩) (fun _ => 0) 0 900 300).result
      = Except.error timeoutErrMsg :=
  (C1_waitForNewImage_only_fresh_or_timeout
      (fun _ => Except.ok ⟨false, "", none⟩) (fun _ => 0) 0 900 300).2
    (fun _ => ⟨⟨false, "", none⟩, rfl, by decide⟩) (by decide)

theorem waitGo_timeout_elapsed (p : Nat → Except String Meta) (d : Nat → Nat)
    (prev : Int) (T I D : Nat) (hI : 1 ≤ I) (hD : ∀ j, d j ≤ D)
    (hall : ∀ j, ∃ m, p j = Except.ok m ∧ metaTs m ≤ prev) :
    ∀ fuel i e, T ≤ fuel + e → e < T + I + D →
      (waitGo p d prev T I fuel i e).result = Except.error timeoutErrMsg ∧
      T ≤ (waitGo p d prev T I fuel i e).elapsed ∧
      (waitGo p d prev T I fuel i e).elapsed < T + I + D := by
  intro fuel
  induction fuel with
  | zero =>
    intro i e hTe hub
    unfold waitGo
    rw [if_neg (by omega)]
    refine ⟨rfl, ?_, ?_⟩
    · show T ≤ e
      omega
    · show e < T + I + D
      omega
  | succ n ih =>
    intro i e hTe hub
    unfold waitGo
    by_cases hc : e < T
    · rw [if_pos hc]
      obtain ⟨m, hm, hle⟩ := hall i
      rw [hm]
      simp only [isFreshMeta_eq_false_of_le hle, Bool.false_eq_true, if_false]
      have hdi := hD i
      have hrec := ih (i + 1) (e + d i + I) (by omega) (by omega)
      exact ⟨hrec.1, hrec.2.1, hrec.2.2⟩
    · rw [if_neg hc]
      refine ⟨rfl, ?_, ?_⟩
      · show T ≤ e
        omega
      · show e < T + I + D
        omega

/-- C5: if every metadata poll reports a timestamp ≤ `prevTs`, then
    `waitForNewImage(prevTs, {timeoutMs: 1000, intervalMs: 100})`
    terminates by throwing the timeout error: the throw happens at an
    elapsed time of at least 1000ms and — when every poll round-trip takes
    at most `D` ms — strictly less than 1000 + 100 + `D` ms (one interval
    plus one poll round-trip past the deadline); it never loops
    indefinitely. -/
theorem C5_wait_timeout_window (p : Nat → Except String Meta) (d : Nat → Nat)
    (prev : Int) (D : Nat) (hD : ∀ j, d j ≤ D)
    (hall : ∀ j, ∃ m, p j = Except.ok m ∧ metaTs m ≤ prev) :
    (waitForNewImage p d prev 1000 100).result = Except.error timeoutErrMsg ∧
    1000 ≤ (waitForNewImage p d prev 1000 100).elapsed ∧
    (waitForNewImage p d prev 1000 100).elapsed < 1000 + 100 + D :=
  waitGo_timeout_elapsed p d prev 1000 100 D (by omega) hD hall 1001 0 0
    (by omega) (by omega)

theorem C5_witness :
    (waitForNewImage (fun _ => Except.ok ⟨false, "x", some ⟨some 0, none⟩⟩)
        (fun _ => 0) 5 1000 100).result = Except.error timeoutErrMsg ∧
    1000 ≤ (waitForNewImage (fun _ => Except.ok ⟨false, "x", some ⟨some 0, none⟩⟩)
        (fun _ => 0) 5 1000 100).elapsed ∧
    (waitForNewImage (fun _ => Except.ok ⟨false, "x", some ⟨some 0, none⟩⟩)
        (fun _ => 0) 5 1000 100).elapsed < 1000 + 100 + 0 :=
  C5_wait_timeout_window (fun _ => Except.ok ⟨false, "x", some ⟨some 0, none⟩⟩)
    (fun _ => 0) 5 0 (fun _ => Nat.le_refl 0)
    (fun _ => ⟨⟨false, "x", some ⟨some 0, none⟩⟩, rfl, by decide⟩)

/-- One sensor sample from the serial line (`temp_c`, `hum_pct`, GPS
    fields, `ts_ms`).  Numeric payloads are irrelevant to the claims and
    kept as `Int`. -/
structure SensorDatum where
  ts_ms : Int
  temp_c : Int
  hum_pct : Int
  gps_lat : Int
  gps_lon : Int
  gps_sat : Int
deriving DecidableEq

/-- A chart data point `{x: label, y: value}`.  The label is the raw
    timestamp (locale formatting of `toLocaleTimeString` abstracted away). -/
structure ChartPoint where
  x : Int
  y : Int
deriving DecidableEq

/-- A row of the reading-history table: `{ts, label, value}` from
    `appendReadingPoint`. -/
structure HistEntry where
  ts : Option Int
  label : Int
  value : Int
deriving DecidableEq

/-- The client-side history buffers of app.js. -/
structure Buffers where
  sensorData : List SensorDatum
  tempData : List ChartPoint
  humData : List ChartPoint
  readingData : List ChartPoint
  readingHistory : List HistEntry
deriving DecidableEq

/-- The `xs.push(x); if (xs.length > cap) xs.shift();` idiom used for
    every history buffer in app.js. -/
def pushTrim (cap : Nat) (xs : List α) (x : α) : List α :=
  let ys := xs ++ [x]
  if cap < ys.length then ys.tail else ys

/-- `updateCharts(data)` (app.js lines 516-534): pushes to `tempData` and
    `humData`, trimming each to 60 entries. -/
def updateCharts (b : Buffers) (d : SensorDatum) : Buffers :=
  { b with
    tempData := pushTrim 60 b.tempData ⟨d.ts_ms, d.temp_c⟩
    humData := pushTrim 60 b.humData ⟨d.ts_ms, d.hum_pct⟩ }

/-- `processSensorData(data)` (app.js lines 335-371), restricted to its
    buffer effects: push to `sensorData` trimming to 1000, then
    `updateCharts`. -/
def processSensorData (b : Buffers) (d : SensorDatum) : Buffers :=
  updateCharts { b with sensorData := pushTrim 1000 b.sensorData d } d

/-- `appendReadingPoint(reading, ts)` (app.js lines 482-504).  `canvas` is
    whether the `readingChart` canvas exists (early return otherwise);
    `reading = none` models a value that fails `parseFloat`/`isFinite`
    (early return); `ts = none` models the optional argument being
    omitted, in which case "now" is used for the labels. -/
def appendReadingPoint (canvas : Bool) (now : Int) (b : Buffers)
    (reading : Option Int) (ts : Option Int) : Buffers :=
  if canvas = false then b
  else
    match reading with
    | none => b
    | some v =>
      { b with
        readingData := pushTrim 60 b.readingData ⟨ts.getD now, v⟩
        readingHistory := pushTrim 30 b.readingHistory ⟨ts, ts.getD now, v⟩ }

/-- The client-side mutable state of app.js relevant to the capture flow:
    `latestTs`, `lastReadingTs`, the `isCapturing` guard, the `src` of the
    `latestImg` element, and the history buffers. -/
structure ClientState where
  latestTs : Int
  lastReadingTs : Int
  isCapturing : Bool
  imgSrc : Option String
  buffers : Buffers
deriving DecidableEq

/-- `setLatestImage(ts, imageUrl)` (app.js lines 824-830): displays
    `imageUrl?t=ts` and assigns `latestTs = ts` (the image `onload`
    callback is modelled as completing synchronously). -/
def setLatestImage (s : ClientState) (ts : Int) (imageUrl : String) : ClientState :=
  { s with
    imgSrc := some (imageUrl ++ "?t=" ++ toString ts)
    latestTs := ts }

/-- First block of `refreshLatest` (app.js lines 787-791): if the fetched
    metadata has an image and a non-empty url and its `ts` is strictly
    newer than `latestTs`, display it via `setLatestImage`. -/
def refreshImagePart (s : ClientState) (j : Meta) : ClientState :=
  if j.hasImage = true ∧ j.imageUrl ≠ "" then
    if s.latestTs < metaTs j then setLatestImage s (metaTs j) j.imageUrl else s
  else s

/-- Second block of `refreshLatest` (app.js lines 793-802): if the
    metadata carries a `reading` and its `ts` is newer than
    `lastReadingTs`, append a reading point and advance `lastReadingTs`
    (the advance happens even when the reading fails `parseFloat`, since
    the assignment follows the call unconditionally). -/
def refreshReadingPart (canvas : Bool) (j : Meta) (s1 : ClientState) : ClientState :=
  match j.result.bind MetaResult.reading with
  | none => s1
  | some rv =>
    if s1.lastReadingTs < metaTs j then
      { s1 with
        buffers := appendReadingPoint canvas (metaTs j) s1.buffers rv (some (metaTs j))
        lastReadingTs := metaTs j }
    else s1

/-- `refreshLatest()` (app.js lines 784-808).  `fetched` is what
    `getLatestMeta` produced (`none` = the fetch threw, caught by the
    surrounding try).  Returns the new state together with the list of
    latest-metadata requests issued; `now` is `Date.now()` at the fetch,
    used for the `nocache` parameter. -/
def refreshLatest (canvas : Bool) (now : Nat) (s : ClientState)
    (fetched : Option Meta) : ClientState × List Req :=
  if s.isCapturing then (s, [])
  else
    match fetched with
    | none => (s, [Req.getLatest now true])
    | some j =>
      (refreshReadingPart canvas j (refreshImagePart s j), [Req.getLatest now true])

/-- Response of `POST /api/watermeter/capture` as destructured by
    `captureNow`: `{ok, token}`; a falsy `token` is `none`. -/
structure CapResp where
  ok : Bool
  token : Option String
deriving DecidableEq

/-- `captureNow()` (app.js lines 750-782).  Inputs: the current state, the
    POST response (`Except.error` = the fetch threw or `r.ok` was false),
    and the poll stream/durations consumed by the inner
    `waitForNewImage(latestTs, {timeoutMs: 25000, intervalMs: 400})`.
    Output: the new state, the requests issued in order, and the surfaced
    outcome (`Except.error msg` = the catch branch displayed `msg`).
    The trailing `await refreshLatest()` runs while `isCapturing` is still
    true, so its guard makes it a no-op and it issues no fetch; its
    `fetched` argument is passed as `none` but is never consulted. -/
def captureNow (canvas : Bool) (now : Nat) (s : ClientState)
    (resp : Except String CapResp)
    (polls : Nat → Except String Meta) (dur : Nat → Nat) :
    ClientState × List Req × Except String Unit :=
  if s.isCapturing then (s, [], Except.ok ())
  else
    let s0 : ClientState := { s with isCapturing := true }
    match resp with
    | Except.error msg =>
      ({ s0 with isCapturing := false }, [Req.postCapture], Except.error msg)
    | Except.ok r =>
      if r.ok = true ∧ r.token ≠ none then
        match (waitForNewImage polls dur s.latestTs 25000 400).result with
        | Except.error msg =>
          ({ s0 with isCapturing := false },
           Req.postCapture :: (waitForNewImage polls dur s.latestTs 25000 400).reqs,
           Except.error msg)
        | Except.ok _ =>
          (({ (refreshLatest canvas now s0 none).1 with isCapturing := false }),
           Req.postCapture :: (waitForNewImage polls dur s.latestTs 25000 400).reqs
             ++ (refreshLatest canvas now s0 none).2,
           Except.ok ())
      else
        ({ s0 with isCapturing := false }, [Req.postCapture], Except.error "no token")

/-- The buffer-touching operations of the client, for quantifying over
    arbitrary interleavings: a serial sensor sample, one tick of the
    latest-metadata refresh, and the manual analyze button
    (`appendReadingPoint(data.reading)` with no `ts`). -/
inductive ClientOp where
  | serial (d : SensorDatum)
  | refresh (now : Nat) (fetched : Option Meta)
  | analyzeBtn (now : Int) (reading : Option Int)
deriving DecidableEq

def clientStep (canvas : Bool) (s : ClientState) : ClientOp → ClientState
  | ClientOp.serial d => { s with buffers := processSensorData s.buffers d }
  | ClientOp.refresh now f => (refreshLatest canvas now s f).1
  | ClientOp.analyzeBtn now r =>
    { s with buffers := appendReadingPoint canvas now s.buffers r none }

/-- Client state at page load: `latestTs = 0`, `lastReadingTs = 0`,
    `isCapturing = false`, nothing displayed, all buffers empty. -/
def initClientState : ClientState :=
  { latestTs := 0
    lastReadingTs := 0
    isCapturing := false
    imgSrc := none
    buffers := ⟨[], [], [], [], []⟩ }

theorem refreshReadingPart_latestTs (canvas : Bool) (j : Meta) (s1 : ClientState) :
    (refreshReadingPart canvas j s1).latestTs = s1.latestTs := by
  unfold refreshReadingPart
  split
  · rfl
  · split <;> rfl

theorem refreshReadingPart_isCapturing (canvas : Bool) (j : Meta) (s1 : ClientState) :
    (refreshReadingPart canvas j s1).isCapturing = s1.isCapturing := by
  unfold refreshReadingPart
  split
  · rfl
  · split <;> rfl

theorem refreshReadingPart_imgSrc (canvas : Bool) (j : Meta) (s1 : ClientState) :
    (refreshReadingPart canvas j s1).imgSrc = s1.imgSrc := by
  unfold refreshReadingPart
  split
  · rfl
  · split <;> rfl

theorem refreshImagePart_latestTs (s : ClientState) (j : Meta) :
    (refreshImagePart s j).latestTs =
      if (j.hasImage = true ∧ j.imageUrl ≠ "") ∧ s.latestTs < metaTs j then metaTs j
      else s.latestTs := by
  unfold refreshImagePart setLatestImage
  split_ifs with h1 h2 <;> simp_all

theorem refreshImagePart_isCapturing (s : ClientState) (j : Meta) :
    (refreshImagePart s j).isCapturing = s.isCapturing := by
  unfold refreshImagePart setLatestImage
  split_ifs <;> rfl


theorem refreshLatest_capturing (canvas : Bool) (now : Nat) (s : ClientState)
    (f : Option Meta) (h : s.isCapturing = true) :
    refreshLatest canvas now s f = (s, []) := by
  unfold refreshLatest
  simp [h]

theorem refreshLatest_none (canvas : Bool) (now : Nat) (s : ClientState)
    (hcap : s.isCapturing = false) :
    refreshLatest canvas now s none = (s, [Req.getLatest now true]) := by
  unfold refreshLatest
  simp [hcap]

theorem refreshLatest_some (canvas : Bool) (now : Nat) (s : ClientState) (j : Meta)
    (hcap : s.isCapturing = false) :
    refreshLatest canvas now s (some j) =
      (refreshReadingPart canvas j (refreshImagePart s j), [Req.getLatest now true]) := by
  unfold refreshLatest
  simp [hcap]

theorem refreshLatest_some_latestTs (canvas : Bool) (now : Nat) (s : ClientState)
    (j : Meta) (hcap : s.isCapturing = false) :
    ((refreshLatest canvas now s (some j)).1).latestTs =
      if (j.hasImage = true ∧ j.imageUrl ≠ "") ∧ s.latestTs < metaTs j then metaTs j
      else s.latestTs := by
  rw [refreshLatest_some canvas now s j hcap]
  exact (refreshReadingPart_latestTs canvas j _).trans (refreshImagePart_latestTs s j)

theorem refreshLatest_isCapturing_eq (canvas : Bool) (now : Nat) (s : ClientState)
    (f : Option Meta) :
    ((refreshLatest canvas now s f).1).isCapturing = s.isCapturing := by
  by_cases hcap : s.isCapturing = true
  · rw [refreshLatest_capturing canvas now s f hcap]
  · have hc : s.isCapturing = false := by
      revert hcap
      cases s.isCapturing <;> simp
    cases f with
    | none => rw [refreshLatest_none canvas now s hc]
    | some j =>
      rw [refreshLatest_some canvas now s j hc]
      exact (refreshReadingPart_isCapturing canvas j _).trans
        (refreshImagePart_isCapturing s j)

theorem refreshLatest_latestTs_mono (canvas : Bool) (now : Nat) (s : ClientState)
    (f : Option Meta) :
    s.latestTs ≤ ((refreshLatest canvas now s f).1).latestTs := by
  by_cases hcap : s.isCapturing = true
  · rw [refreshLatest_capturing canvas now s f hcap]
  · have hc : s.isCapturing = false := by
      revert hcap
      cases s.isCapturing <;> simp
    cases f with
    | none => rw [refreshLatest_none canvas now s hc]
    | some j =>
      rw [refreshLatest_some_latestTs canvas now s j hc]
      split_ifs with h
      · exact le_of_lt h.2
      · exact le_refl _

/-- C2: under the refresh flow, the client's known latest-artifact
    timestamp `latestTs` is non-decreasing: `refreshLatest` replaces the
    displayed image only when the fetched `result.ts` strictly exceeds
    `latestTs`, `setLatestImage` assigns exactly the timestamp it was
    invoked with, and, presented with artifacts of timestamps `t1 < t2`
    in either arrival order, the client retains `t2`. -/
theorem C2_latestTs_monotone_and_gate :
    (∀ (canvas : Bool) (now : Nat) (s : ClientState) (f : Option Meta),
        s.latestTs ≤ ((refreshLatest canvas now s f).1).latestTs) ∧
    (∀ (s : ClientState) (ts : Int) (url : String),
        (setLatestImage s ts url).latestTs = ts) ∧
    (∀ (c1 c2 : Bool) (n1 n2 : Nat) (s : ClientState) (m1 m2 : Meta) (t1 t2 : Int),
        s.isCapturing = false →
        m1.hasImage = true → m1.imageUrl ≠ "" → metaTs m1 = t1 →
        m2.hasImage = true → m2.imageUrl ≠ "" → metaTs m2 = t2 →
        t1 < t2 → s.latestTs < t2 →
        ((refreshLatest c2 n2 ((refreshLatest c1 n1 s (some m1)).1) (some m2)).1).latestTs = t2 ∧
        ((refreshLatest c2 n2 ((refreshLatest c1 n1 s (some m2)).1) (some m1)).1).latestTs = t2) := by
  refine ⟨refreshLatest_latestTs_mono, fun s ts url => rfl, ?_⟩
  intro c1 c2 n1 n2 s m1 m2 t1 t2 hcap h1i h1u h1t h2i h2u h2t h12 hst
  have hcapA : ((refreshLatest c1 n1 s (some m1)).1).isCapturing = false := by
    rw [refreshLatest_isCapturing_eq]
    exact hcap
  have hcapB : ((refreshLatest c1 n1 s (some m2)).1).isCapturing = false := by
    rw [refreshLatest_isCapturing_eq]
    exact hcap
  constructor
  · have hAlt : ((refreshLatest c1 n1 s (some m1)).1).latestTs < t2 := by
      rw [refreshLatest_some_latestTs c1 n1 s m1 hcap]
      split_ifs with h
      · rw [h1t]
        exact h12
      · exact hst
    rw [refreshLatest_some_latestTs c2 n2 _ m2 hcapA]
    rw [if_pos ⟨⟨h2i, h2u⟩, by rw [h2t]; exact hAlt⟩]
    exact h2t
  · have hBlt : ((refreshLatest c1 n1 s (some m2)).1).latestTs = t2 := by
      rw [refreshLatest_some_latestTs c1 n1 s m2 hcap]
      rw [if_pos ⟨⟨h2i, h2u⟩, by rw [h2t]; exact hst⟩]
      exact h2t
    rw [refreshLatest_some_latestTs c2 n2 _ m1 hcapB, hBlt]
    split_ifs with hcon
    · rw [h1t] at hcon
      exact absurd (hcon.2.trans h12) (lt_irrefl t2)
    · rfl

theorem C2_witness :
    ((refreshLatest true 1 ((refreshLatest true 0 initClientState
        (some ⟨true, "a", some ⟨some 1, none⟩⟩)).1)
        (some ⟨true, "b", some ⟨some 2, none⟩⟩)).1).latestTs = 2 ∧
    ((refreshLatest true 1 ((refreshLatest true 0 initClientState
        (some ⟨true, "b", some ⟨some 2, none⟩⟩)).1)
        (some ⟨true, "a", some ⟨some 1, none⟩⟩)).1).latestTs = 2 :=
  C2_latestTs_monotone_and_gate.2.2 true true 0 1 initClientState
    ⟨true, "a", some ⟨some 1, none⟩⟩ ⟨true, "b", some ⟨some 2, none⟩⟩ 1 2
    rfl rfl (by decide) rfl rfl (by decide) rfl (by decide) (by decide)

/-- C4: at most one capture wait-loop is active at a time: when
    `isCapturing` is true a second `captureNow` invocation returns
    immediately with no request issued, and `refreshLatest` performs no
    fetch; `isCapturing` is set at the start of `captureNow` and reset to
    false on every exit path (success or error), so the guard cannot be
    left stuck. -/
theorem C4_isCapturing_guard :
    (∀ (canvas : Bool) (now : Nat) (s : ClientState) (resp : Except String CapResp)
        (polls : Nat → Except String Meta) (dur : Nat → Nat),
        s.isCapturing = true →
        captureNow canvas now s resp polls dur = (s, [], Except.ok ())) ∧
    (∀ (canvas : Bool) (now : Nat) (s : ClientState) (f : Option Meta),
        s.isCapturing = true → refreshLatest canvas now s f = (s, [])) ∧
    (∀ (canvas : Bool) (now : Nat) (s : ClientState) (resp : Except String CapResp)
        (polls : Nat → Except String Meta) (dur : Nat → Nat),
        s.isCapturing = false →
        ((captureNow canvas now s resp polls dur).1).isCapturing = false) := by
  refine ⟨?_, fun canvas now s f h => refreshLatest_capturing canvas now s f h, ?_⟩
  · intro canvas now s resp polls dur h
    unfold captureNow
    simp [h]
  · intro canvas now s resp polls dur h
    unfold captureNow
    simp only [h, Bool.false_eq_true, if_false]
    cases resp with
    | error msg => rfl
    | ok r =>
      dsimp only
      by_cases hr : r.ok = true ∧ r.token ≠ none
      · rw [if_pos hr]
        cases (waitForNewImage polls dur s.latestTs 25000 400).result with
        | error msg => rfl
        | ok m => rfl
      · rw [if_neg hr]

theorem C4_witness :
    captureNow true 0 { initClientState with isCapturing := true } (Except.error "x")
        (fun _ => Except.error "y") (fun _ => 0)
      = ({ initClientState with isCapturing := true }, [], Except.ok ()) ∧
    refreshLatest true 0 { initClientState with isCapturing := true } none
      = ({ initClientState with isCapturing := true }, []) ∧
    ((captureNow true 0 initClientState (Except.error "x")
        (fun _ => Except.error "y") (fun _ => 0)).1).isCapturing = false :=
  ⟨C4_isCapturing_guard.1 true 0 _ (Except.error "x") (fun _ => Except.error "y")
      (fun _ => 0) rfl,
   C4_isCapturing_guard.2.1 true 0 _ none rfl,
   C4_isCapturing_guard.2.2 true 0 initClientState (Except.error "x")
      (fun _ => Except.error "y") (fun _ => 0) rfl⟩

/-- All history buffers within their capacity, as claimed for app.js. -/
def buffersBounded (b : Buffers) : Prop :=
  b.sensorData.length ≤ 1000 ∧ b.tempData.length ≤ 60 ∧ b.humData.length ≤ 60 ∧
  b.readingData.length ≤ 60 ∧ b.readingHistory.length ≤ 30

theorem pushTrim_length_le {α : Type} {cap : Nat} {xs : List α} (x : α)
    (h : xs.length ≤ cap) : (pushTrim cap xs x).length ≤ cap := by
  unfold pushTrim
  dsimp only
  split_ifs with hlt
  · simp only [List.length_tail, List.length_append, List.length_singleton]
    omega
  · simp only [List.length_append, List.length_singleton] at *
    omega

theorem processSensorData_bounded {b : Buffers} (d : SensorDatum)
    (h : buffersBounded b) : buffersBounded (processSensorData b d) := by
  obtain ⟨h1, h2, h3, h4, h5⟩ := h
  exact ⟨pushTrim_length_le d h1, pushTrim_length_le _ h2, pushTrim_length_le _ h3, h4, h5⟩

theorem appendReadingPoint_bounded {b : Buffers} (canvas : Bool) (now : Int)
    (r : Option Int) (ts : Option Int) (h : buffersBounded b) :
    buffersBounded (appendReadingPoint canvas now b r ts) := by
  obtain ⟨h1, h2, h3, h4, h5⟩ := h
  unfold appendReadingPoint
  split_ifs
  · exact ⟨h1, h2, h3, h4, h5⟩
  · cases r with
    | none => exact ⟨h1, h2, h3, h4, h5⟩
    | some v => exact ⟨h1, h2, h3, pushTrim_length_le _ h4, pushTrim_length_le _ h5⟩

theorem refreshReadingPart_bounded {s1 : ClientState} (canvas : Bool) (j : Meta)
    (h : buffersBounded s1.buffers) :
    buffersBounded (refreshReadingPart canvas j s1).buffers := by
  unfold refreshReadingPart
  split
  · exact h
  · split
    · exact appendReadingPoint_bounded canvas _ _ _ h
    · exact h

theorem refreshImagePart_buffers (s : ClientState) (j : Meta) :
    (refreshImagePart s j).buffers = s.buffers := by
  unfold refreshImagePart setLatestImage
  split_ifs <;> rfl

theorem clientStep_bounded {s : ClientState} (canvas : Bool) (op : ClientOp)
    (h : buffersBounded s.buffers) :
    buffersBounded (clientStep canvas s op).buffers := by
  cases op with
  | serial d => exact processSensorData_bounded d h
  | refresh now f =>
    dsimp only [clientStep]
    by_cases hcap : s.isCapturing = true
    · rw [refreshLatest_capturing canvas now s f hcap]
      exact h
    · have hc : s.isCapturing = false := by
        revert hcap
        cases s.isCapturing <;> simp
      cases f with
      | none =>
        rw [refreshLatest_none canvas now s hc]
        exact h
      | some j =>
        rw [refreshLatest_some canvas now s j hc]
        refine refreshReadingPart_bounded canvas j ?_
        rw [refreshImagePart_buffers]
        exact h
  | analyzeBtn now r => exact appendReadingPoint_bounded canvas _ _ _ h

theorem clientRun_bounded (canvas : Bool) (ops : List ClientOp) :
    ∀ s : ClientState, buffersBounded s.buffers →
      buffersBounded ((ops.foldl (clientStep canvas) s).buffers) := by
  induction ops with
  | nil => intro s h; exact h
  | cons op rest ih =>
    intro s h
    exact ih (clientStep canvas s op) (clientStep_bounded canvas op h)

/-- C10: starting from the empty page state, after every sequence of
    data-processing calls (serial sensor samples, latest-metadata
    refreshes, manual analyze clicks) all history buffers stay bounded:
    `sensorData` ≤ 1000 entries, `tempData`/`humData`/`readingData` ≤ 60
    entries each, `readingHistory` ≤ 30 entries. -/
theorem C10_history_buffers_bounded (canvas : Bool) (ops : List ClientOp) :
    buffersBounded ((ops.foldl (clientStep canvas) initClientState).buffers) :=
  clientRun_bounded canvas ops initClientState
    ⟨by decide, by decide, by decide, by decide, by decide⟩

/-- All requests in the list hit the latest-metadata endpoint with
    `cache: "no-store"` and carry strictly increasing `nocache` values,
    the first being at least `lo` (so each one is fresh: taken from the
    clock at the moment the fetch is issued). -/
def latestReqsFresh : Nat → List Req → Prop
  | _, [] => True
  | lo, Req.getLatest n ns :: rest => lo ≤ n ∧ ns = true ∧ latestReqsFresh (n + 1) rest
  | _, Req.postCapture :: _ => False
  | _, Req.stateQuery :: _ => False

theorem latestReqsFresh_weaken {lo lo' : Nat} {l : List Req} (h : lo ≤ lo')
    (hl : latestReqsFresh lo' l) : latestReqsFresh lo l := by
  cases l with
  | nil => trivial
  | cons r rest =>
    cases r with
    | postCapture => exact hl
    | stateQuery => exact hl
    | getLatest n ns => exact ⟨le_trans h hl.1, hl.2.1, hl.2.2⟩

theorem waitGo_reqs_fresh (p : Nat → Except String Meta) (d : Nat → Nat)
    (prev : Int) (T I : Nat) (hI : 1 ≤ I) :
    ∀ fuel i e, latestReqsFresh e (waitGo p d prev T I fuel i e).reqs := by
  intro fuel
  induction fuel with
  | zero =>
    intro i e
    unfold waitGo
    split <;> trivial
  | succ n ih =>
    intro i e
    unfold waitGo
    by_cases hc : e < T
    · rw [if_pos hc]
      cases hp : p i with
      | error msg => exact ⟨le_refl e, rfl, trivial⟩
      | ok m =>
        by_cases hf : isFreshMeta prev m = true
        · simp only [hf, if_true]
          exact ⟨le_refl e, rfl, trivial⟩
        · simp only [hf, Bool.false_eq_true, if_false]
          refine ⟨le_refl e, rfl, ?_⟩
          exact latestReqsFresh_weaken (by omega) (ih (i + 1) (e + d i + I))
    · rw [if_neg hc]
      trivial

theorem captureNow_reqs_shape (canvas : Bool) (now : Nat) (s : ClientState)
    (resp : Except String CapResp) (polls : Nat → Except String Meta)
    (dur : Nat → Nat) (hcap : s.isCapturing = false) :
    (captureNow canvas now s resp polls dur).2.1 = [Req.postCapture] ∨
    (captureNow canvas now s resp polls dur).2.1 =
      Req.postCapture :: (waitForNewImage polls dur s.latestTs 25000 400).reqs := by
  unfold captureNow
  simp only [hcap, Bool.false_eq_true, if_false]
  cases resp with
  | error msg => exact Or.inl rfl
  | ok r =>
    dsimp only
    by_cases hr : r.ok = true ∧ r.token ≠ none
    · rw [if_pos hr]
      cases (waitForNewImage polls dur s.latestTs 25000 400).result with
      | error msg => exact Or.inr rfl
      | ok m =>
        refine Or.inr ?_
        dsimp only
        rw [refreshLatest_capturing canvas now _ none rfl]
        simp
    · rw [if_neg hr]
      exact Or.inl rfl

/-- C8: every fetch the client makes for artifact data defeats caching:
    the displayed image URL is always the reported `imageUrl` with the
    artifact's timestamp appended as `?t=<ts>`; every latest-metadata
    request carries a fresh `nocache=<now>` parameter and is issued with
    `cache: "no-store"` — both for the periodic `refreshLatest` fetch and
    for every poll inside the `captureNow` wait loop. -/
theorem C8_cache_defeating_fetches :
    (∀ (s : ClientState) (ts : Int) (url : String),
        (setLatestImage s ts url).imgSrc = some (url ++ "?t=" ++ toString ts)) ∧
    (∀ (canvas : Bool) (now : Nat) (s : ClientState) (j : Meta),
        s.isCapturing = false → j.hasImage = true → j.imageUrl ≠ "" →
        s.latestTs < metaTs j →
        ((refreshLatest canvas now s (some j)).1).imgSrc
          = some (j.imageUrl ++ "?t=" ++ toString (metaTs j))) ∧
    (∀ (canvas : Bool) (now : Nat) (s : ClientState) (f : Option Meta),
        (refreshLatest canvas now s f).2 = [] ∨
        (refreshLatest canvas now s f).2 = [Req.getLatest now true]) ∧
    (∀ (canvas : Bool) (now : Nat) (s : ClientState) (resp : Except String CapResp)
        (polls : Nat → Except String Meta) (dur : Nat → Nat) (rest : List Req),
        (captureNow canvas now s resp polls dur).2.1 = Req.postCapture :: rest →
        latestReqsFresh 0 rest) := by
  refine ⟨fun s ts url => rfl, ?_, ?_, ?_⟩
  · intro canvas now s j hcap himg hurl hlt
    rw [refreshLatest_some canvas now s j hcap]
    dsimp only
    rw [refreshReadingPart_imgSrc]
    unfold refreshImagePart
    rw [if_pos ⟨himg, hurl⟩, if_pos hlt]
    rfl
  · intro canvas now s f
    by_cases hcap : s.isCapturing = true
    · rw [refreshLatest_capturing canvas now s f hcap]
      exact Or.inl rfl
    · have hc : s.isCapturing = false := by
        revert hcap
        cases s.isCapturing <;> simp
      cases f with
      | none =>
        rw [refreshLatest_none canvas now s hc]
        exact Or.inr rfl
      | some j =>
        rw [refreshLatest_some canvas now s j hc]
        exact Or.inr rfl
  · intro canvas now s resp polls dur rest hshape
    by_cases hcap : s.isCapturing = true
    · have : (captureNow canvas now s resp polls dur).2.1 = [] := by
        unfold captureNow
        simp [hcap]
      rw [this] at hshape
      exact absurd hshape (by simp)
    · have hc : s.isCapturing = false := by
        revert hcap
        cases s.isCapturing <;> simp
      rcases captureNow_reqs_shape canvas now s resp polls dur hc with hsh | hsh
      · rw [hsh] at hshape
        have : rest = [] := by
          injection hshape with h1 h2
          exact h2.symm
        rw [this]
        trivial
      · rw [hsh] at hshape
        have : rest = (waitForNewImage polls dur s.latestTs 25000 400).reqs := by
          injection hshape with h1 h2
          exact h2.symm
        rw [this]
        exact waitGo_reqs_fresh polls dur s.latestTs 25000 400 (by omega) 25001 0 0

theorem C8_witness :
    ((refreshLatest true 7 initClientState (some ⟨true, "img.jpg", some ⟨some 3, none⟩⟩)).1).imgSrc
      = some ("img.jpg" ++ "?t=" ++ toString (metaTs ⟨true, "img.jpg", some ⟨some 3, none⟩⟩)) ∧
    latestReqsFresh 0 [] :=
  ⟨C8_cache_defeating_fetches.2.1 true 7 initClientState
      ⟨true, "img.jpg", some ⟨some 3, none⟩⟩ rfl rfl (by decide) (by decide),
   C8_cache_defeating_fetches.2.2.2 true 7 { initClientState with latestTs := 9 }
      (Except.error "boom") (fun _ => Except.error "x") (fun _ => 0) []
      (by decide)⟩

theorem latestReqsFresh_no_stateQuery {lo : Nat} {l : List Req}
    (h : latestReqsFresh lo l) : Req.stateQuery ∉ l := by
  induction l generalizing lo with
  | nil => simp
  | cons r rest ih =>
    cases r with
    | postCapture => exact absurd h (by simp [latestReqsFresh])
    | stateQuery => exact absurd h (by simp [latestReqsFresh])
    | getLatest n ns =>
      simp only [List.mem_cons, not_or]
      exact ⟨by simp, ih h.2.2⟩

theorem captureNow_no_token (canvas : Bool) (now : Nat) (s : ClientState)
    (r : CapResp) (polls : Nat → Except String Meta) (dur : Nat → Nat)
    (hcap : s.isCapturing = false) (hbad : r.ok = false ∨ r.token = none) :
    captureNow canvas now s (Except.ok r) polls dur =
      ({ s with isCapturing := false }, [Req.postCapture], Except.error "no token") := by
  unfold captureNow
  simp only [hcap, Bool.false_eq_true, if_false]
  rw [if_neg]
  intro hcon
  rcases hbad with hb | hb
  · rw [hb] at hcon
    exact absurd hcon.1 (by simp)
  · exact absurd hb hcon.2

theorem captureNow_success_shape (canvas : Bool) (now : Nat) (s : ClientState)
    (r : CapResp) (polls : Nat → Except String Meta) (dur : Nat → Nat)
    (hcap : s.isCapturing = false) (hok : r.ok = true) (htok : r.token ≠ none) :
    (captureNow canvas now s (Except.ok r) polls dur).2.1 =
      Req.postCapture :: (waitForNewImage polls dur s.latestTs 25000 400).reqs ∧
    (∀ msg, (waitForNewImage polls dur s.latestTs 25000 400).result = Except.error msg →
      (captureNow canvas now s (Except.ok r) polls dur).2.2 = Except.error msg) ∧
    (∀ m, (waitForNewImage polls dur s.latestTs 25000 400).result = Except.ok m →
      (captureNow canvas now s (Except.ok r) polls dur).2.2 = Except.ok ()) := by
  unfold captureNow
  simp only [hcap, Bool.false_eq_true, if_false]
  rw [if_pos ⟨hok, htok⟩]
  cases hw : (waitForNewImage polls dur s.latestTs 25000 400).result with
  | error msg =>
    refine ⟨rfl, ?_, ?_⟩
    · intro msg2 hmsg
      simpa using hmsg
    · intro m hm
      exact absurd hm (by simp)
  | ok m0 =>
    rw [refreshLatest_capturing canvas now _ none rfl]
    refine ⟨by simp, ?_, fun m hm => rfl⟩
    intro msg hmsg
    exact absurd hmsg (by simp)

/-- C7 (amended): `captureNow` obtains a token from the POST capture
    response `{ok, token}`, surfacing the error "no token" when `ok` is
    falsy or the token absent; it then waits on the public latest-metadata
    endpoint — `waitForNewImage(latestTs, {timeoutMs: 25000, intervalMs:
    400})` — until a strictly newer image appears or that wait times out,
    and it never issues a per-token capture-state request (the
    `pollCaptureState` helper is dead code). -/
theorem C7_captureNow_token_then_latest_wait :
    (∀ (canvas : Bool) (now : Nat) (s : ClientState) (r : CapResp)
        (polls : Nat → Except String Meta) (dur : Nat → Nat),
        s.isCapturing = false → (r.ok = false ∨ r.token = none) →
        captureNow canvas now s (Except.ok r) polls dur =
          ({ s with isCapturing := false }, [Req.postCapture], Except.error "no token")) ∧
    (∀ (canvas : Bool) (now : Nat) (s : ClientState) (r : CapResp)
        (polls : Nat → Except String Meta) (dur : Nat → Nat),
        s.isCapturing = false → r.ok = true → r.token ≠ none →
        (captureNow canvas now s (Except.ok r) polls dur).2.1 =
          Req.postCapture :: (waitForNewImage polls dur s.latestTs 25000 400).reqs ∧
        (∀ msg, (waitForNewImage polls dur s.latestTs 25000 400).result = Except.error msg →
          (captureNow canvas now s (Except.ok r) polls dur).2.2 = Except.error msg) ∧
        (∀ m, (waitForNewImage polls dur s.latestTs 25000 400).result = Except.ok m →
          (captureNow canvas now s (Except.ok r) polls dur).2.2 = Except.ok ())) ∧
    (∀ (canvas : Bool) (now : Nat) (s : ClientState) (resp : Except String CapResp)
        (polls : Nat → Except String Meta) (dur : Nat → Nat),
        Req.stateQuery ∉ (captureNow canvas now s resp polls dur).2.1) := by
  refine ⟨captureNow_no_token, captureNow_success_shape, ?_⟩
  intro canvas now s resp polls dur
  by_cases hcap : s.isCapturing = true
  · have : captureNow canvas now s resp polls dur = (s, [], Except.ok ()) := by
      unfold captureNow
      simp [hcap]
    rw [this]
    simp
  · have hc : s.isCapturing = false := by
      revert hcap
      cases s.isCapturing <;> simp
    rcases captureNow_reqs_shape canvas now s resp polls dur hc with hsh | hsh <;> rw [hsh]
    · simp
    · simp only [List.mem_cons, not_or]
      refine ⟨by simp, ?_⟩
      exact latestReqsFresh_no_stateQuery
        (waitGo_reqs_fresh polls dur s.latestTs 25000 400 (by omega) 25001 0 0)

/-- C7 counterexample: a fully successful `captureNow` run — token
    granted, first latest-metadata poll already strictly newer — issues
    only the POST and latest-metadata requests and succeeds; no per-token
    capture-state request is ever made, refuting the claim that
    `captureNow` polls the per-token capture state until PUBLISHED. -/
theorem C7_counterexample :
    (captureNow true 0 initClientState (Except.ok ⟨true, some "tok"⟩)
        (fun _ => Except.ok ⟨true, "u", some ⟨some 5, none⟩⟩) (fun _ => 0)).2.2
      = Except.ok () ∧
    (captureNow true 0 initClientState (Except.ok ⟨true, some "tok"⟩)
        (fun _ => Except.ok ⟨true, "u", some ⟨some 5, none⟩⟩) (fun _ => 0)).2.1
      = [Req.postCapture, Req.getLatest 0 true] ∧
    Req.stateQuery ∉ (captureNow true 0 initClientState (Except.ok ⟨true, some "tok"⟩)
        (fun _ => Except.ok ⟨true, "u", some ⟨some 5, none⟩⟩) (fun _ => 0)).2.1 := by
  refine ⟨?_, ?_, ?_⟩ <;> decide

theorem C7_witness :
    captureNow false 3 initClientState (Except.ok ⟨false, some "t"⟩)
        (fun _ => Except.error "e") (fun _ => 0)
      = ({ initClientState with isCapturing := false },
         [Req.postCapture], Except.error "no token") ∧
    Req.stateQuery ∉ (captureNow false 3 initClientState (Except.ok ⟨true, some "t"⟩)
        (fun _ => Except.error "e") (fun _ => 0)).2.1 :=
  ⟨C7_captureNow_token_then_latest_wait.1 false 3 initClientState ⟨false, some "t"⟩
      (fun _ => Except.error "e") (fun _ => 0) rfl (Or.inl rfl),
   C7_captureNow_token_then_latest_wait.2.2 false 3 initClientState
      (Except.ok ⟨true, some "t"⟩) (fun _ => Except.error "e") (fun _ => 0)⟩

/-- Observable effects of one firmware loop iteration
    (src/CamSketch/CamSketch.ino): relay pin writes, blocking delays, the
    advance of a watermark, camera snaps and uploads.  `snap`/`upload`
    carry the capture seq being serviced, or `none` when no capture
    request is pending (the post-relay capture). -/
inductive DevEvent where
  | pinWrite (high : Bool)
  | delayMs (ms : Nat)
  | relayAck (seq : Int)
  | snap (req : Option Int) (ok : Bool)
  | upload (req : Option Int) (ok : Bool)
deriving DecidableEq

/-- The firmware's static loop state: `lastSeq` (capture watermark) and
    `lastRelaySeq` (relay watermark). -/
structure DevState where
  lastSeq : Int
  lastRelaySeq : Int
deriving DecidableEq

/-- Environment outcomes of one capture action: whether
    `snapFreshJpeg` produced a frame and whether `postJpegRaw`
    succeeded. -/
structure CapEnv where
  captureOk : Bool
  uploadOk : Bool
deriving DecidableEq

/-- Environment of one relay action: the PRNG draw and the outcomes of
    the post-relay capture attempt. -/
structure RelayEnv where
  seed : Nat
  captureOk : Bool
  uploadOk : Bool
deriving DecidableEq

/-- Arduino `random(lo, hi)`: a value in `[lo, hi)`, here driven by an
    arbitrary seed. -/
def arduinoRandom (lo hi seed : Nat) : Nat := lo + seed % (hi - lo)

/-- The capture-poll branch of `loop()` (CamSketch.ino lines 227-265):
    on `{capture:true, seq}` take one fresh frame; if that worked, upload
    it; advance `lastSeq` to `seq` only if the upload succeeded.  `resp =
    none` models a failed poll or unparseable body (early return, no
    action). -/
def devCapStep (s : DevState) (resp : Option (Bool × Int)) (env : CapEnv) :
    DevState × List DevEvent :=
  match resp with
  | none => (s, [])
  | some (doCapture, seq) =>
    if doCapture = true then
      if env.captureOk = true then
        (if env.uploadOk = true then { s with lastSeq := seq } else s,
         [DevEvent.snap (some seq) true, DevEvent.upload (some seq) env.uploadOk])
      else (s, [DevEvent.snap (some seq) false])
    else (s, [])

/-- The relay-poll branch of `loop()` (CamSketch.ino lines 267-307): on
    `{activate:true, seq}` drive the relay HIGH, block for
    `random(20000, 60000)` ms, drive it LOW, advance `lastRelaySeq`, then
    unconditionally take and upload one fresh frame (upload only if the
    snap produced a frame). -/
def devRelayStep (s : DevState) (resp : Option (Bool × Int)) (env : RelayEnv) :
    DevState × List DevEvent :=
  match resp with
  | none => (s, [])
  | some (activate, rseq) =>
    if activate = true then
      ({ s with lastRelaySeq := rseq },
       [DevEvent.pinWrite true, DevEvent.delayMs (arduinoRandom 20000 60000 env.seed),
        DevEvent.pinWrite false, DevEvent.relayAck rseq,
        DevEvent.snap none env.captureOk] ++
       (if env.captureOk = true then [DevEvent.upload none env.uploadOk] else []))
    else (s, [])

/-- The relay pin level after the last `digitalWrite` of an event list
    (if any). -/
def lastPinLevel (evs : List DevEvent) : Option Bool :=
  (evs.filterMap fun e =>
    match e with
    | DevEvent.pinWrite b => some b
    | _ => none).getLast?

/-- C9: on `{activate:true, seq:s}` the device drives the relay pin HIGH
    for a duration drawn from [20000, 60000) ms and back LOW (the pin is
    LOW when the iteration ends), advances `lastRelaySeq` to `s` only
    after the relay cycle completes, and then unconditionally attempts one
    fresh capture-and-upload even though no capture request is pending, so
    an artifact upload can reach the server with no associated capture
    sequence number and without touching the capture watermark. -/
theorem C9_relay_cycle_then_upload (s : DevState) (rseq : Int) (env : RelayEnv) :
    20000 ≤ arduinoRandom 20000 60000 env.seed ∧
    arduinoRandom 20000 60000 env.seed < 60000 ∧
    (devRelayStep s (some (true, rseq)) env).2 =
      [DevEvent.pinWrite true, DevEvent.delayMs (arduinoRandom 20000 60000 env.seed),
       DevEvent.pinWrite false, DevEvent.relayAck rseq,
       DevEvent.snap none env.captureOk] ++
      (if env.captureOk = true then [DevEvent.upload none env.uploadOk] else []) ∧
    lastPinLevel (devRelayStep s (some (true, rseq)) env).2 = some false ∧
    (∃ pre post, (devRelayStep s (some (true, rseq)) env).2
        = pre ++ DevEvent.relayAck rseq :: post ∧ DevEvent.pinWrite false ∈ pre) ∧
    (devRelayStep s (some (true, rseq)) env).1.lastRelaySeq = rseq ∧
    (devRelayStep s (some (true, rseq)) env).1.lastSeq = s.lastSeq ∧
    DevEvent.snap none env.captureOk ∈ (devRelayStep s (some (true, rseq)) env).2 ∧
    (env.captureOk = true →
      DevEvent.upload none env.uploadOk ∈ (devRelayStep s (some (true, rseq)) env).2) := by
  refine ⟨Nat.le_add_right 20000 _, ?_, rfl, ?_, ?_, rfl, rfl, ?_, ?_⟩
  · have : env.seed % 40000 < 40000 := Nat.mod_lt _ (by omega)
    unfold arduinoRandom
    omega
  · cases henv : env.captureOk <;> simp [devRelayStep, lastPinLevel, henv]
  · refine ⟨[DevEvent.pinWrite true,
       DevEvent.delayMs (arduinoRandom 20000 60000 env.seed), DevEvent.pinWrite false],
       DevEvent.snap none env.captureOk ::
         (if env.captureOk = true then [DevEvent.upload none env.uploadOk] else []), ?_, ?_⟩
    · cases henv : env.captureOk <;> simp [devRelayStep, henv]
    · simp
  · cases henv : env.captureOk <;> simp [devRelayStep, henv]
  · intro henv
    simp [devRelayStep, henv]

theorem C9_witness :
    20000 ≤ arduinoRandom 20000 60000 123456 ∧
    arduinoRandom 20000 60000 123456 < 60000 ∧
    (devRelayStep ⟨0, 0⟩ (some (true, 1)) ⟨123456, true, true⟩).2 =
      [DevEvent.pinWrite true, DevEvent.delayMs (arduinoRandom 20000 60000 123456),
       DevEvent.pinWrite false, DevEvent.relayAck 1, DevEvent.snap none true] ++
      (if true = true then [DevEvent.upload none true] else []) ∧
    lastPinLevel (devRelayStep ⟨0, 0⟩ (some (true, 1)) ⟨123456, true, true⟩).2 = some false ∧
    (∃ pre post, (devRelayStep ⟨0, 0⟩ (some (true, 1)) ⟨123456, true, true⟩).2
        = pre ++ DevEvent.relayAck 1 :: post ∧ DevEvent.pinWrite false ∈ pre) ∧
    (devRelayStep ⟨0, 0⟩ (some (true, 1)) ⟨123456, true, true⟩).1.lastRelaySeq = 1 ∧
    (devRelayStep ⟨0, 0⟩ (some (true, 1)) ⟨123456, true, true⟩).1.lastSeq = (⟨0, 0⟩ : DevState).lastSeq ∧
    DevEvent.snap none true ∈ (devRelayStep ⟨0, 0⟩ (some (true, 1)) ⟨123456, true, true⟩).2 ∧
    (true = true →
      DevEvent.upload none true ∈ (devRelayStep ⟨0, 0⟩ (some (true, 1)) ⟨123456, true, true⟩).2) :=
  C9_relay_cycle_then_upload ⟨0, 0⟩ 1 ⟨123456, true, true⟩

/-- Modelled from the spec: the server-side Device Poll Handler and
    Sequence Ledger are not part of the files under src (only the client
    and the firmware are); per spec §4.1/§4.3,
    `poll(kind, since) -> (pending, seq)` returns `pending = true, seq =
    current` iff `current > since`, otherwise `pending = false, seq =
    since` is irrelevant here because the firmware only acts on
    `pending = true`; we return `seq = current` in both cases, matching
    `{capture: bool, seq: int}`. -/
def pollNext (current since : Int) : Bool × Int :=
  (decide (since < current), current)

/-- A device run: at each step the server's capture counter is `c` (an
    arbitrary value chosen by the environment), the device polls with
    `since = lastSeq`, and acts per `devCapStep` with outcome `env`. -/
def devCapRun (s : DevState) : List (Int × CapEnv) → DevState × List DevEvent
  | [] => (s, [])
  | (c, env) :: rest =>
    ((devCapRun (devCapStep s (some (pollNext c s.lastSeq)) env).1 rest).1,
     (devCapStep s (some (pollNext c s.lastSeq)) env).2 ++
       (devCapRun (devCapStep s (some (pollNext c s.lastSeq)) env).1 rest).2)

theorem devCapStep_poll_lastSeq (s : DevState) (c : Int) (env : CapEnv) :
    (devCapStep s (some (pollNext c s.lastSeq)) env).1.lastSeq = s.lastSeq ∨
    (s.lastSeq < c ∧ env.captureOk = true ∧ env.uploadOk = true ∧
      (devCapStep s (some (pollNext c s.lastSeq)) env).1.lastSeq = c) := by
  unfold devCapStep pollNext
  by_cases hlt : s.lastSeq < c
  · by_cases hcap : env.captureOk = true
    · by_cases hup : env.uploadOk = true
      · refine Or.inr ⟨hlt, hcap, hup, ?_⟩
        simp [hlt, hcap, hup]
      · refine Or.inl ?_
        simp [hlt, hcap, hup]
    · refine Or.inl ?_
      simp [hlt, hcap]
  · refine Or.inl ?_
    simp [hlt]

theorem devCapStep_poll_lastSeq_mono (s : DevState) (c : Int) (env : CapEnv) :
    s.lastSeq ≤ (devCapStep s (some (pollNext c s.lastSeq)) env).1.lastSeq := by
  rcases devCapStep_poll_lastSeq s c env with h | h
  · rw [h]
  · rw [h.2.2.2]
    exact le_of_lt h.1

theorem devCapRun_lastSeq_mono (steps : List (Int × CapEnv)) :
    ∀ s : DevState, s.lastSeq ≤ (devCapRun s steps).1.lastSeq := by
  induction steps with
  | nil => intro s; exact le_refl _
  | cons pr rest ih =>
    intro s
    obtain ⟨c, env⟩ := pr
    exact le_trans (devCapStep_poll_lastSeq_mono s c env)
      (ih (devCapStep s (some (pollNext c s.lastSeq)) env).1)

theorem devCapStep_poll_upload_mem {v : Int} (s : DevState) (c : Int) (env : CapEnv)
    (h : DevEvent.upload (some v) true ∈ (devCapStep s (some (pollNext c s.lastSeq)) env).2) :
    s.lastSeq < v ∧ (devCapStep s (some (pollNext c s.lastSeq)) env).1.lastSeq = v := by
  revert h
  unfold devCapStep pollNext
  by_cases hlt : s.lastSeq < c
  · by_cases hcap : env.captureOk = true
    · by_cases hup : env.uploadOk = true
      · intro h
        simp only [hlt, hcap, hup, decide_eq_true_eq, if_true, if_pos, List.mem_cons,
          List.not_mem_nil, or_false] at h
        rcases h with h | h
        · exact absurd h (by simp)
        · have hv : v = c := by
            injection h with h1 h2
            injection h1
          subst hv
          constructor
          · exact hlt
          · simp [hlt, hcap, hup]
      · intro h
        simp [hlt, hcap, hup] at h
    · intro h
      simp [hlt, hcap] at h
  · intro h
    simp [hlt] at h

theorem devCapRun_no_stale_upload {v : Int} (steps : List (Int × CapEnv)) :
    ∀ s : DevState, v ≤ s.lastSeq →
      DevEvent.upload (some v) true ∉ (devCapRun s steps).2 := by
  induction steps with
  | nil =>
    intro s hv
    simp [devCapRun]
  | cons pr rest ih =>
    intro s hv
    obtain ⟨c, env⟩ := pr
    show DevEvent.upload (some v) true ∉ _ ++ _
    rw [List.mem_append]
    rintro (hmem | hmem)
    · have := (devCapStep_poll_upload_mem s c env hmem).1
      omega
    · exact ih (devCapStep s (some (pollNext c s.lastSeq)) env).1
        (le_trans hv (devCapStep_poll_lastSeq_mono s c env)) hmem

theorem devCapStep_upload_count_le {v : Int} (s : DevState)
    (resp : Option (Bool × Int)) (env : CapEnv) :
    ((devCapStep s resp env).2.count (DevEvent.upload (some v) true)) ≤ 1 := by
  unfold devCapStep
  cases resp with
  | none => simp
  | some pr =>
    obtain ⟨b, q⟩ := pr
    by_cases hb : b = true
    · by_cases hcap : env.captureOk = true
      · simp only [hb, hcap, if_true]
        by_cases hv : DevEvent.upload (some q) env.uploadOk = DevEvent.upload (some v) true
        · simp [List.count_cons, hv]
        · simp [List.count_cons, hv]
      · simp [hb, hcap, List.count_cons]
    · simp [hb]

theorem devCapRun_upload_at_most_once {v : Int} (steps : List (Int × CapEnv)) :
    ∀ s : DevState,
      ((devCapRun s steps).2.count (DevEvent.upload (some v) true)) ≤ 1 := by
  induction steps with
  | nil =>
    intro s
    simp [devCapRun]
  | cons pr rest ih =>
    intro s
    obtain ⟨c, env⟩ := pr
    show ((_ ++ _ : List DevEvent).count _) ≤ 1
    rw [List.count_append]
    by_cases hmem :
        DevEvent.upload (some v) true ∈ (devCapStep s (some (pollNext c s.lastSeq)) env).2
    · have hchar := devCapStep_poll_upload_mem s c env hmem
      have hrest : DevEvent.upload (some v) true ∉
          (devCapRun (devCapStep s (some (pollNext c s.lastSeq)) env).1 rest).2 :=
        devCapRun_no_stale_upload rest _ (le_of_eq hchar.2.symm)
      rw [List.count_eq_zero_of_not_mem hrest]
      have := devCapStep_upload_count_le (v := v) s (some (pollNext c s.lastSeq)) env
      omega
    · rw [List.count_eq_zero_of_not_mem hmem]
      simpa using ih (devCapStep s (some (pollNext c s.lastSeq)) env).1

def isSnapEv : DevEvent → Bool
  | DevEvent.snap _ _ => true
  | _ => false

def isUploadEv : DevEvent → Bool
  | DevEvent.upload _ _ => true
  | _ => false

/-- C3 counterexample: with the server capture counter at 1 the device
    polls with `since=0`, receives `{capture:true, seq:1}`, captures and
    uploads, but the upload fails, so `lastSeq` stays 0; the next poll
    again receives `{capture:true, seq:1}` and the device captures again
    for the same seq — sequence number 1 is acted on twice, refuting
    "each sequence number is acted on at most once". -/
theorem C3_counterexample :
    ((devCapRun ⟨0, 0⟩ [(1, ⟨true, false⟩), (1, ⟨true, true⟩)]).2.count
        (DevEvent.snap (some 1) true)) = 2 ∧
    (devCapRun ⟨0, 0⟩ [(1, ⟨true, false⟩), (1, ⟨true, true⟩)]).2 =
      [DevEvent.snap (some 1) true, DevEvent.upload (some 1) false,
       DevEvent.snap (some 1) true, DevEvent.upload (some 1) true] := by
  refine ⟨?_, ?_⟩ <;> decide

/-- C3 (amended): for every device poll iteration that receives
    `{capture:true, seq:s}` the device performs exactly one capture
    attempt and at most one upload attempt (one iff the capture produced a
    frame), and `lastSeq` is advanced to `s` iff a successful upload event
    for `s` occurred — otherwise `lastSeq` is unchanged and the same seq
    is served again on a later poll; consequently each sequence number is
    SUCCESSFULLY acted on (uploaded, with the watermark advanced) at most
    once in any run, while failed captures or uploads may re-execute the
    same seq. -/
theorem C3_capture_ack_on_success :
    (∀ (s : DevState) (q : Int) (env : CapEnv),
        ((devCapStep s (some (true, q)) env).2.countP isSnapEv) = 1 ∧
        ((devCapStep s (some (true, q)) env).2.countP isUploadEv)
          = (if env.captureOk = true then 1 else 0) ∧
        (env.captureOk = true ∧ env.uploadOk = true →
          (devCapStep s (some (true, q)) env).1.lastSeq = q) ∧
        (¬(env.captureOk = true ∧ env.uploadOk = true) →
          (devCapStep s (some (true, q)) env).1.lastSeq = s.lastSeq) ∧
        (s.lastSeq < q →
          ((devCapStep s (some (true, q)) env).1.lastSeq = q ↔
            DevEvent.upload (some q) true ∈ (devCapStep s (some (true, q)) env).2))) ∧
    (∀ (steps : List (Int × CapEnv)) (s : DevState) (v : Int),
        ((devCapRun s steps).2.count (DevEvent.upload (some v) true)) ≤ 1) := by
  constructor
  · intro s q env
    refine ⟨?_, ?_, ?_, ?_, ?_⟩
    · unfold devCapStep
      by_cases hcap : env.captureOk = true
      · simp [hcap, List.countP_cons, isSnapEv, isUploadEv]
      · simp [hcap, List.countP_cons, isSnapEv, isUploadEv]
    · unfold devCapStep
      by_cases hcap : env.captureOk = true
      · simp [hcap, List.countP_cons, isSnapEv, isUploadEv]
      · simp [hcap, List.countP_cons, isSnapEv, isUploadEv]
    · rintro ⟨hcap, hup⟩
      unfold devCapStep
      simp [hcap, hup]
    · intro hcon
      unfold devCapStep
      by_cases hcap : env.captureOk = true
      · by_cases hup : env.uploadOk = true
        · exact absurd ⟨hcap, hup⟩ hcon
        · simp [hcap, hup]
      · simp [hcap]
    · intro hlt
      unfold devCapStep
      by_cases hcap : env.captureOk = true
      · by_cases hup : env.uploadOk = true
        · simp [hcap, hup]
        · simp [hcap, hup]
          omega
      · simp [hcap]
        omega
  · intro steps s v
    exact devCapRun_upload_at_most_once steps s

theorem C3_witness :
    ((devCapStep ⟨0, 0⟩ (some (true, 3)) ⟨true, true⟩).1.lastSeq = 3 ↔
      DevEvent.upload (some 3) true ∈ (devCapStep ⟨0, 0⟩ (some (true, 3)) ⟨true, true⟩).2) ∧
    ((devCapRun ⟨0, 0⟩ [(1, ⟨true, true⟩), (1, ⟨true, true⟩)]).2.count
        (DevEvent.upload (some 1) true)) ≤ 1 :=
  ⟨(C3_capture_ack_on_success.1 ⟨0, 0⟩ 3 ⟨true, true⟩).2.2.2.2 (by decide),
   C3_capture_ack_on_success.2 [(1, ⟨true, true⟩), (1, ⟨true, true⟩)] ⟨0, 0⟩ 1⟩

/-- First index at which `pat` occurs in the list (leftmost match), as
    used by Arduino `String::indexOf`. -/
def subFind (pat : List Char) : List Char → Option Nat
  | [] => if pat.isEmpty then some 0 else none
  | c :: rest =>
    if pat.isPrefixOf (c :: rest) then some 0
    else (subFind pat rest).map (· + 1)

/-- Arduino `String::indexOf(pat, from)`: the first occurrence at index
    ≥ `from`, or `none` (the C++ -1). -/
def indexOfFrom (l pat : List Char) (start : Nat) : Option Nat :=
  (subFind pat (l.drop start)).map (· + start)

/-- The whitespace class of C `isspace`, used by Arduino
    `String::trim`/`atol`. -/
def isSpaceCh (c : Char) : Bool :=
  c = ' ' || c = '\t' || c = '\n' || c = '\x0b' || c = '\x0c' || c = '\r'

/-- Arduino `String::trim`: strip leading and trailing whitespace. -/
def trimChars (l : List Char) : List Char :=
  ((l.dropWhile isSpaceCh).reverse.dropWhile isSpaceCh).reverse

/-- Value of the leading run of decimal digits (0 when there is none). -/
def digitsVal (l : List Char) : Int :=
  (l.takeWhile Char.isDigit).foldl (fun a c => a * 10 + Int.ofNat (c.toNat - 48)) 0

/-- Arduino `String::toInt` (C `atol`): skip leading whitespace, optional
    sign, then the leading digits; 0 if there are none. -/
def arduinoToInt (l : List Char) : Int :=
  match l.dropWhile isSpaceCh with
  | '-' :: rest => -(digitsVal rest)
  | '+' :: rest => digitsVal rest
  | rest => digitsVal rest

/-- Arduino `String::substring(from, to)`: the characters in `[from, to)`,
    indices clamped to the length. -/
def subChars (l : List Char) (a b : Nat) : List Char :=
  (l.take b).drop a

def seqKey : List Char := '"' :: 's' :: 'e' :: 'q' :: '"' :: []

def capKey : List Char := '"' :: 'c' :: 'a' :: 'p' :: 't' :: 'u' :: 'r' :: 'e' :: '"' :: []

def activateKey : List Char :=
  '"' :: 'a' :: 'c' :: 't' :: 'i' :: 'v' :: 'a' :: 't' :: 'e' :: '"' :: []

def trueLit : List Char := 't' :: 'r' :: 'u' :: 'e' :: []

/-- `parseCaptureJson` (CamSketch.ino lines 106-124): hand-rolled
    substring search for the `"seq"` and `"capture"` keys; returns `none`
    exactly where the C++ returns false (out-parameters that were already
    written on a false path never escape, since the caller returns).  The
    C++ `(sEnd > 0 ? sEnd : body.length())` is kept literally: a comma
    found at index 0 counts as not found. -/
def parseCaptureJson (body : List Char) : Option (Bool × Int) :=
  match indexOfFrom body seqKey 0, indexOfFrom body capKey 0 with
  | some sIdx, some cIdx =>
    match indexOfFrom body (':' :: []) sIdx with
    | none => none
    | some sc =>
      match indexOfFrom body (':' :: []) cIdx with
      | none => none
      | some cc =>
        let bound :=
          match indexOfFrom body (',' :: []) sc with
          | some p => if 0 < p then p else body.length
          | none => body.length
        let seq := arduinoToInt (trimChars (subChars body (sc + 1) bound))
        let capStr := trimChars (body.drop (cc + 1))
        some (trueLit.isPrefixOf capStr, seq)
  | _, _ => none

/-- `parseRelayJson` (CamSketch.ino lines 126-144): same shape with the
    `"activate"` key. -/
def parseRelayJson (body : List Char) : Option (Bool × Int) :=
  match indexOfFrom body seqKey 0, indexOfFrom body activateKey 0 with
  | some sIdx, some aIdx =>
    match indexOfFrom body (':' :: []) sIdx with
    | none => none
    | some sc =>
      match indexOfFrom body (':' :: []) aIdx with
      | none => none
      | some ac =>
        let bound :=
          match indexOfFrom body (',' :: []) sc with
          | some p => if 0 < p then p else body.length
          | none => body.length
        let seq := arduinoToInt (trimChars (subChars body (sc + 1) bound))
        let actStr := trimChars (body.drop (ac + 1))
        some (trueLit.isPrefixOf actStr, seq)
  | _, _ => none

/-- The capture-poll prologue of `loop()` (CamSketch.ino lines 227-243):
    a failed HTTP poll or an unparseable body means return with no
    action; otherwise act on the parsed `{capture, seq}`. -/
def devCapIter (s : DevState) (pollOk : Bool) (body : List Char) (env : CapEnv) :
    DevState × List DevEvent :=
  if pollOk = true then
    match parseCaptureJson body with
    | none => (s, [])
    | some pr => devCapStep s (some pr) env
  else (s, [])

/-- The relay-poll prologue of `loop()` (CamSketch.ino lines 267-284). -/
def devRelayIter (s : DevState) (pollOk : Bool) (body : List Char) (env : RelayEnv) :
    DevState × List DevEvent :=
  if pollOk = true then
    match parseRelayJson body with
    | none => (s, [])
    | some pr => devRelayStep s (some pr) env
  else (s, [])

theorem parseCaptureJson_missing_key (body : List Char)
    (h : indexOfFrom body seqKey 0 = none ∨ indexOfFrom body capKey 0 = none) :
    parseCaptureJson body = none := by
  rcases h with h | h
  · simp only [parseCaptureJson, h]
  · cases h1 : indexOfFrom body seqKey 0 with
    | none => simp only [parseCaptureJson, h1]
    | some sIdx => simp only [parseCaptureJson, h1, h]

theorem parseCaptureJson_missing_colon (body : List Char) :
    (∀ sIdx, indexOfFrom body seqKey 0 = some sIdx →
      indexOfFrom body (':' :: []) sIdx = none → parseCaptureJson body = none) ∧
    (∀ cIdx, indexOfFrom body capKey 0 = some cIdx →
      indexOfFrom body (':' :: []) cIdx = none → parseCaptureJson body = none) := by
  constructor
  · intro sIdx h1 h2
    cases h3 : indexOfFrom body capKey 0 with
    | none => simp only [parseCaptureJson, h1, h3]
    | some cIdx => simp only [parseCaptureJson, h1, h3, h2]
  · intro cIdx h1 h2
    cases hs : indexOfFrom body seqKey 0 with
    | none => simp only [parseCaptureJson, hs]
    | some sIdx =>
      cases hc : indexOfFrom body (':' :: []) sIdx with
      | none => simp only [parseCaptureJson, hs, h1, hc]
      | some sc => simp only [parseCaptureJson, hs, h1, hc, h2]

theorem parseRelayJson_missing_key (body : List Char)
    (h : indexOfFrom body seqKey 0 = none ∨ indexOfFrom body activateKey 0 = none) :
    parseRelayJson body = none := by
  rcases h with h | h
  · simp only [parseRelayJson, h]
  · cases h1 : indexOfFrom body seqKey 0 with
    | none => simp only [parseRelayJson, h1]
    | some sIdx => simp only [parseRelayJson, h1, h]

theorem parseRelayJson_missing_colon (body : List Char) :
    (∀ sIdx, indexOfFrom body seqKey 0 = some sIdx →
      indexOfFrom body (':' :: []) sIdx = none → parseRelayJson body = none) ∧
    (∀ aIdx, indexOfFrom body activateKey 0 = some aIdx →
      indexOfFrom body (':' :: []) aIdx = none → parseRelayJson body = none) := by
  constructor
  · intro sIdx h1 h2
    cases h3 : indexOfFrom body activateKey 0 with
    | none => simp only [parseRelayJson, h1, h3]
    | some aIdx => simp only [parseRelayJson, h1, h3, h2]
  · intro aIdx h1 h2
    cases hs : indexOfFrom body seqKey 0 with
    | none => simp only [parseRelayJson, hs]
    | some sIdx =>
      cases hc : indexOfFrom body (':' :: []) sIdx with
      | none => simp only [parseRelayJson, hs, h1, hc]
      | some sc => simp only [parseRelayJson, hs, h1, hc, h2]

/-- C6: the device's poll-response parsers are total functions that
    tolerate irregular whitespace around ':' and ',' (witnessed on
    representative bodies in both key orders); a body missing the `"seq"`
    or `"capture"` (resp. `"activate"`) key, or missing a ':' at or after
    it, parses to "false" (`none`); and whenever the parser returns false
    the poll loop performs no capture or relay action and leaves the
    device state unchanged for that iteration. -/
theorem C6_parsers_tolerant_and_fail_closed :
    (∀ body : List Char,
        (indexOfFrom body seqKey 0 = none ∨ indexOfFrom body capKey 0 = none) →
        parseCaptureJson body = none) ∧
    (∀ (body : List Char) (sIdx : Nat), indexOfFrom body seqKey 0 = some sIdx →
        indexOfFrom body (':' :: []) sIdx = none → parseCaptureJson body = none) ∧
    (∀ (body : List Char) (cIdx : Nat), indexOfFrom body capKey 0 = some cIdx →
        indexOfFrom body (':' :: []) cIdx = none → parseCaptureJson body = none) ∧
    (∀ body : List Char,
        (indexOfFrom body seqKey 0 = none ∨ indexOfFrom body activateKey 0 = none) →
        parseRelayJson body = none) ∧
    (∀ (body : List Char) (sIdx : Nat), indexOfFrom body seqKey 0 = some sIdx →
        indexOfFrom body (':' :: []) sIdx = none → parseRelayJson body = none) ∧
    (∀ (body : List Char) (aIdx : Nat), indexOfFrom body activateKey 0 = some aIdx →
        indexOfFrom body (':' :: []) aIdx = none → parseRelayJson body = none) ∧
    parseCaptureJson ("\x7b\"capture\" :  true ,\n \"seq\" :\t42\x7d".data) = some (true, 42) ∧
    parseCaptureJson ("\x7b\"seq\"\t: 7 , \"capture\" : false \x7d".data) = some (false, 7) ∧
    parseCaptureJson ("\x7b\"capture\":false,\"seq\":0\x7d".data) = some (false, 0) ∧
    parseRelayJson ("\x7b \"activate\" : true , \"seq\" : 9 \x7d".data) = some (true, 9) ∧
    parseRelayJson ("\x7b\"seq\":3,\"activate\":false\x7d".data) = some (false, 3) ∧
    (∀ (s : DevState) (body : List Char) (env : CapEnv),
        parseCaptureJson body = none → devCapIter s true body env = (s, [])) ∧
    (∀ (s : DevState) (body : List Char) (env : RelayEnv),
        parseRelayJson body = none → devRelayIter s true body env = (s, [])) ∧
    (∀ (s : DevState) (body : List Char) (env : CapEnv),
        devCapIter s false body env = (s, [])) ∧
    (∀ (s : DevState) (body : List Char) (env : RelayEnv),
        devRelayIter s false body env = (s, [])) := by
  refine ⟨parseCaptureJson_missing_key, (parseCaptureJson_missing_colon ·|>.1 ·),
    ?_, parseRelayJson_missing_key, ?_, ?_, by decide, by decide, by decide, by decide,
    by decide, ?_, ?_, ?_, ?_⟩
  · intro body cIdx h1 h2
    exact (parseCaptureJson_missing_colon body).2 cIdx h1 h2
  · intro body sIdx h1 h2
    exact (parseRelayJson_missing_colon body).1 sIdx h1 h2
  · intro body aIdx h1 h2
    exact (parseRelayJson_missing_colon body).2 aIdx h1 h2
  · intro s body env h
    simp [devCapIter, h]
  · intro s body env h
    simp [devRelayIter, h]
  · intro s body env
    simp [devCapIter]
  · intro s body env
    simp [devRelayIter]

theorem C6_witness :
    parseCaptureJson ("\x7b\x7d".data) = none ∧
    parseRelayJson ("nonsense".data) = none ∧
    devCapIter ⟨4, 2⟩ true ("\x7b\x7d".data) ⟨true, true⟩ = (⟨4, 2⟩, []) :=
  ⟨C6_parsers_tolerant_and_fail_closed.1 ("\x7b\x7d".data) (Or.inl (by decide)),
   C6_parsers_tolerant_and_fail_closed.2.2.2.1 ("nonsense".data) (Or.inl (by decide)),
   (C6_parsers_tolerant_and_fail_closed.2.2.2.2.2.2.2.2.2.2.2.1 ⟨4, 2⟩ ("\x7b\x7d".data)
      ⟨true, true⟩
      (C6_parsers_tolerant_and_fail_closed.1 ("\x7b\x7d".data) (Or.inl (by decide))))⟩
